import Mathlib

/-!
Verification of the calculator in src/main.py (Fredev01/prac-calculadora).

The Python program is a Tkinter calculator.  The verified core is the
calculation state machine: `CalculatorModel` (reset / input_number /
input_operation / calculate / clear), the operation dispatcher
`CalculatorOperations.calculate` with its four operation classes, and the
controller-level handlers `handle_button_click`, `handle_decimal`,
`handle_sign_change`, `handle_percentage`.  The GUI (`CalculatorView`) only
renders `display_value` and forwards button texts, so it is not modelled.

Numbers: the Python code computes with binary64 floats.  We model the
numeric domain as unnormalized fractions `PyNum` (integer numerator and
denominator) with the evident exact arithmetic.  The model does not round
to binary64 and never overflows to infinity or nan, so it agrees with the
float semantics exactly on computations whose values are exactly
representable in binary64 — which covers every concrete trace used in
the claims below, including the exponent-notation trace through
10^16 = 2^16 * 5^16 (its mantissa 5^16 fits in 53 bits, and
str(-1e16) = "-1e+16" in CPython as in the model).  The invariants
proved for all reachable states (dot counts, the set of stored
operators, the classification of raised errors) depend only on the shape
of the emitted strings and the grammar of the parser, not on rounding;
they hold of CPython's output in every regime, including inf/nan, which
no claim trace reaches.  Every denominator the machine ever produces is
positive (parses yield powers of ten and the operations multiply
denominators), which the sign and zero tests below assume.

Strings: `pyFloat` models Python's `float(s)`: optional sign, digits with
an optional single point, and an optional `e`/`E` exponent part with an
optionally signed digit run — the grammar CPython accepts (inf/nan
literals aside).  `pyStr` models CPython's `str` on a float: the
shortest-round-trip decimal digits, rendered in fixed notation when the
decimal-point position decpt satisfies -3 ≤ decpt ≤ 16 (with ".0"
appended for integral values: str(8.0) = "8.0"), and in exponent
notation otherwise (str(1e16) = "1e+16", str(1e-05) = "1e-05"; signed
exponent, zero-padded to at least two digits).  For a float whose value
has a short exact decimal expansion the shortest-round-trip digits are
that exact expansion, which is what `pyStr` prints; every value the
claims reach is of this kind.
-/

namespace Calculadora

/-- Exact model of a Python float value: an unnormalized fraction.  All
values the calculator produces have a positive denominator. -/
structure PyNum where
  num : Int
  den : Int
deriving DecidableEq, Repr

/-- Embed an integer literal value, as `float("5")` would produce. -/
def PyNum.ofInt (n : Int) : PyNum := ⟨n, 1⟩

/-- Addition of fractions (`a + b` on floats, exact case). -/
def PyNum.add (a b : PyNum) : PyNum :=
  ⟨a.num * b.den + b.num * a.den, a.den * b.den⟩

/-- Subtraction of fractions (`a - b` on floats, exact case). -/
def PyNum.sub (a b : PyNum) : PyNum :=
  ⟨a.num * b.den - b.num * a.den, a.den * b.den⟩

/-- Multiplication of fractions (`a * b` on floats, exact case). -/
def PyNum.mul (a b : PyNum) : PyNum :=
  ⟨a.num * b.num, a.den * b.den⟩

/-- Division of fractions (`a / b` on floats, exact case). -/
def PyNum.div (a b : PyNum) : PyNum :=
  ⟨a.num * b.den, a.den * b.num⟩

/-- Negation (`-a`). -/
def PyNum.neg (a : PyNum) : PyNum := ⟨-a.num, a.den⟩

/-- Test `a == 0` (correct whenever the denominator is nonzero). -/
def PyNum.isZero (a : PyNum) : Bool := a.num == 0

/-- Test `a < 0` (correct whenever the denominator is nonzero). -/
def PyNum.isNeg (a : PyNum) : Bool := a.num * a.den < 0

/-- Rational value of a `PyNum`, used only to state semantic lemmas. -/
def PyNum.val (a : PyNum) : ℚ := (a.num : ℚ) / (a.den : ℚ)

/-- Character for a decimal digit: code 48 + d (d taken mod 10). -/
def digitChar (n : Nat) : Char := Char.ofNat (48 + n % 10)

/-- Decimal digits of a natural number, most significant first
(fuel-indexed). -/
def natReprAux : Nat → Nat → List Char
  | 0, _ => []
  | fuel + 1, n =>
    if n < 10 then [digitChar n]
    else natReprAux fuel (n / 10) ++ [digitChar (n % 10)]

/-- Decimal rendering of a natural number, as Python renders the integral
part of a float. -/
def natRepr (n : Nat) : String := String.mk (natReprAux (n + 1) n)

/-- First `k` decimal digits of the fraction `n / d` (with `n < d`):
long division, one digit per step. -/
def fracDigitsAux : Nat → Nat → Nat → List Char
  | 0, _, _ => []
  | k + 1, n, d => digitChar (n * 10 / d) :: fracDigitsAux k (n * 10 % d) d

/-- Drop trailing zero digits, keeping at least one digit. -/
def dropTrailingZeros (l : List Char) : List Char :=
  let r := (l.reverse.dropWhile (fun c => c = '0')).reverse
  if r = [] then ['0'] else r

/-- Fixed-point branch of CPython float repr: sign, decimal integral
part, one point, fractional digits with trailing zeros stripped; `".0"`
when the value is integral. -/
def fixedForm (sign : String) (n d : Nat) : String :=
  let ip : Nat := n / d
  let rem : Nat := n % d
  let fracCs : List Char :=
    if rem = 0 then ['0'] else dropTrailingZeros (fracDigitsAux 17 rem d)
  sign ++ natRepr ip ++ "." ++ String.mk fracCs

/-- Exponent digits of CPython exponent notation, zero-padded to at least
two digits (`"1e-05"`, `"1e+16"`, `"1e+100"`). -/
def sciExpDigits (e : Nat) : List Char :=
  if e < 10 then '0' :: natReprAux (e + 1) e else natReprAux (e + 1) e

/-- Exponent-notation branch of CPython float repr: one leading mantissa
digit, an optional point with the remaining mantissa digits, then `e`,
the exponent sign and the padded exponent. -/
def sciForm (sign : String) (mantissa : List Char) (esign : String)
    (e : Nat) : String :=
  sign ++ String.mk [mantissa.headD '0'] ++
    (if mantissa.tail = [] then "" else "." ++ String.mk mantissa.tail) ++
    "e" ++ esign ++ String.mk (sciExpDigits e)

/-- Position of the first significant decimal digit of n / d, for
0 < n < d: the smallest k ≥ 1 with n * 10^k ≥ d (fuel-indexed; the fuel
passed at the call site always suffices). -/
def firstSigPos : Nat → Nat → Nat → Nat
  | 0, _, _ => 1
  | fuel + 1, n, d => if d ≤ n * 10 then 1 else firstSigPos fuel (n * 10) d + 1

/-- Rendering of the magnitude n / d with a given sign prefix:
shortest-round-trip digits (the exact decimal expansion here, capped at
17 fraction digits), in fixed notation while the decimal point position
decpt stays within -3 ≤ decpt ≤ 16 — i.e. at most 16 integral digits and
at most 3 leading fractional zeros — and in exponent notation outside
that window, as in CPython's pystrtod.c. -/
def pyStrCore (sign : String) (n d : Nat) : String :=
  if n = 0 then fixedForm sign n d
  else if d ≤ n then
    let ipDigits := natReprAux (n / d + 1) (n / d)
    if ipDigits.length ≤ 16 then fixedForm sign n d
    else
      sciForm sign
        (dropTrailingZeros (ipDigits ++ fracDigitsAux 17 (n % d) d))
        "+" (ipDigits.length - 1)
  else
    let k := firstSigPos ((natReprAux (d + 1) d).length + 1) n d
    if k ≤ 4 then fixedForm sign n d
    else
      sciForm sign
        (dropTrailingZeros (fracDigitsAux 17 (n * 10 ^ (k - 1)) d))
        "-" k

/-- Model of CPython `str` on a float value: sign, then the rendering of
the magnitude per `pyStrCore`.  Exact for every float whose value has a
short exact decimal expansion, which covers every value the claims reach;
binary64 rounding, inf and nan are outside the model (see the header). -/
def pyStr (q : PyNum) : String :=
  pyStrCore (if q.isNeg then "-" else "") q.num.natAbs q.den.natAbs

/-- Value of a list of decimal digit characters. -/
def digitsToNat (cs : List Char) : Nat :=
  cs.foldl (fun a c => a * 10 + (c.toNat - 48)) 0

/-- Parse the mantissa of a decimal literal: digits with an optional
single point (`"5"`, `"20.0"`, `"0."`); at least one digit overall, as
Python requires.  The result is over the power-of-ten denominator. -/
def parseMantissa (cs : List Char) : Option PyNum :=
  let intPart := cs.takeWhile (fun c => c ≠ '.')
  match cs.dropWhile (fun c => c ≠ '.') with
  | [] =>
    if intPart ≠ [] ∧ intPart.all Char.isDigit then
      some ⟨digitsToNat intPart, 1⟩
    else none
  | c :: frac =>
    if c = '.' ∧ intPart ++ frac ≠ [] ∧ intPart.all Char.isDigit ∧
        frac.all Char.isDigit then
      some ⟨digitsToNat (intPart ++ frac), (10 : Nat) ^ frac.length⟩
    else none

/-- Parse what follows the `e`/`E` of a float literal: an optionally
signed nonempty digit run.  Returns the sign (true means negative) and
the magnitude; anything else — including a trailing point, as in
`"-1e+16."` — is rejected, as by Python's `float()`. -/
def parseExponent (cs : List Char) : Option (Bool × Nat) :=
  match cs with
  | '+' :: rest =>
    if rest ≠ [] ∧ rest.all Char.isDigit then some (false, digitsToNat rest)
    else none
  | '-' :: rest =>
    if rest ≠ [] ∧ rest.all Char.isDigit then some (true, digitsToNat rest)
    else none
  | rest =>
    if rest ≠ [] ∧ rest.all Char.isDigit then some (false, digitsToNat rest)
    else none

/-- Scale a parsed mantissa by a parsed exponent. -/
def applyExponent (m : PyNum) (negExp : Bool) (e : Nat) : PyNum :=
  if negExp then ⟨m.num, m.den * (10 : Int) ^ e⟩
  else ⟨m.num * (10 : Int) ^ e, m.den⟩

/-- Parse an unsigned float literal: a mantissa, optionally followed by an
`e`/`E` exponent part (`"5"`, `"20.0"`, `"1e+16"`, `"1.5E-3"`). -/
def parseUnsigned (cs : List Char) : Option PyNum :=
  let mant := cs.takeWhile (fun c => c ≠ 'e' ∧ c ≠ 'E')
  match cs.dropWhile (fun c => c ≠ 'e' ∧ c ≠ 'E') with
  | [] => parseMantissa mant
  | _ :: expPart =>
    match parseMantissa mant, parseExponent expPart with
    | some m, some se => some (applyExponent m se.1 se.2)
    | _, _ => none

/-- Model of Python `float(s)` on the plain decimal grammar: optional sign
followed by an unsigned decimal literal; `none` models `ValueError`. -/
def pyFloat (s : String) : Option PyNum :=
  match s.data with
  | [] => none
  | c :: rest =>
    if c = '-' then (parseUnsigned rest).map PyNum.neg
    else if c = '+' then parseUnsigned rest
    else parseUnsigned (c :: rest)

/-- Model of Python `str.isdigit` on the button texts (ASCII): nonempty
and all characters decimal digits. -/
def pyIsDigit (s : String) : Bool := s ≠ "" && s.data.all Char.isDigit

/-- Model of Python `c in s` for a single character `c`. -/
def pyContains (s : String) (c : Char) : Bool := s.data.contains c

/-- The `ValueError` outcomes the program can raise: division by zero
(`DivideOperation.execute`), an unsupported operation symbol
(`CalculatorOperations.calculate`), or a failed `float(...)` parse. -/
inductive CalcError where
  | divisionByZero : CalcError
  | unsupportedOperation : String → CalcError
  | parseError : String → CalcError
deriving DecidableEq, Repr

/-- Embeds `CalculatorOperations.calculate`: look the symbol up among the
four registered operations (error if absent), then run its `execute`. -/
def opsCalculate (sym : String) (a b : PyNum) : Except CalcError PyNum :=
  if sym = "+" then .ok (a.add b)
  else if sym = "-" then .ok (a.sub b)
  else if sym = "×" then .ok (a.mul b)
  else if sym = "÷" then
    if b.isZero then .error .divisionByZero else .ok (a.div b)
  else .error (.unsupportedOperation sym)

/-- State of `CalculatorModel` (the fields set by `reset`). -/
structure CalculatorModel where
  currentValue : PyNum
  storedValue : PyNum
  currentOperation : Option String
  waitingForOperand : Bool
  displayValue : String
deriving DecidableEq, Repr

/-- Embeds `CalculatorModel.reset`. -/
def CalculatorModel.reset : CalculatorModel :=
  { currentValue := PyNum.ofInt 0
    storedValue := PyNum.ofInt 0
    currentOperation := none
    waitingForOperand := true
    displayValue := "0" }

/-- The state right after construction (`__init__` calls `reset`). -/
def calcInit : CalculatorModel := CalculatorModel.reset

/-- Embeds `CalculatorModel.input_number`. -/
def CalculatorModel.inputNumber (m : CalculatorModel) (number : String) :
    CalculatorModel :=
  if m.waitingForOperand then
    { m with displayValue := number, waitingForOperand := false }
  else
    { m with displayValue := m.displayValue ++ number }

/-- Embeds `CalculatorModel.calculate`.  The guard
`if self.current_operation and not self.waiting_for_operand` uses Python
truthiness, so `None` and the empty string both skip the body. -/
def CalculatorModel.calculate (m : CalculatorModel) :
    Except CalcError CalculatorModel :=
  match m.currentOperation with
  | none => .ok m
  | some op =>
    if op ≠ "" ∧ m.waitingForOperand = false then
      match pyFloat m.displayValue with
      | none => .error (.parseError m.displayValue)
      | some current =>
        match opsCalculate op m.storedValue current with
        | .error e => .error e
        | .ok result =>
          .ok { m with displayValue := pyStr result,
                       currentOperation := none,
                       waitingForOperand := true }
    else .ok m

/-- Embeds `CalculatorModel.input_operation`: resolve a pending
calculation when an operand was freshly entered, then freeze the display
as the stored operand and record the new operator. -/
def CalculatorModel.inputOperation (m : CalculatorModel)
    (operation : String) : Except CalcError CalculatorModel :=
  match (if m.waitingForOperand then Except.ok m else m.calculate) with
  | .error e => .error e
  | .ok m₁ =>
    match pyFloat m₁.displayValue with
    | none => .error (.parseError m₁.displayValue)
    | some stored =>
      .ok { m₁ with storedValue := stored,
                    currentOperation := some operation,
                    waitingForOperand := true }

/-- Embeds `CalculatorModel.clear` (which just calls `reset`). -/
def CalculatorModel.clear (_ : CalculatorModel) : CalculatorModel :=
  CalculatorModel.reset

/-- Embeds `CalculatorController.handle_decimal`. -/
def handleDecimal (m : CalculatorModel) : CalculatorModel :=
  if pyContains m.displayValue '.' then m
  else if m.waitingForOperand then
    { m with displayValue := "0.", waitingForOperand := false }
  else
    { m with displayValue := m.displayValue ++ "." }

/-- Embeds `CalculatorController.handle_sign_change`:
`display_value = str(-float(display_value))`. -/
def handleSignChange (m : CalculatorModel) :
    Except CalcError CalculatorModel :=
  match pyFloat m.displayValue with
  | none => .error (.parseError m.displayValue)
  | some current => .ok { m with displayValue := pyStr current.neg }

/-- Embeds `CalculatorController.handle_percentage`:
`display_value = str(float(display_value) / 100)`. -/
def handlePercentage (m : CalculatorModel) :
    Except CalcError CalculatorModel :=
  match pyFloat m.displayValue with
  | none => .error (.parseError m.displayValue)
  | some current =>
    .ok { m with displayValue := pyStr (current.div (PyNum.ofInt 100)) }

/-- Embeds `CalculatorController.handle_button_click`: dispatch on the
button text; a `ValueError` is caught, shown to the user (the returned
`some e`) and answered by `model.clear()`, so the state resets. -/
def handleButtonClick (m : CalculatorModel) (text : String) :
    CalculatorModel × Option CalcError :=
  let r : Except CalcError CalculatorModel :=
    if pyIsDigit text then .ok (m.inputNumber text)
    else if text = "." then .ok (handleDecimal m)
    else if text = "+" ∨ text = "-" ∨ text = "×" ∨ text = "÷" then
      m.inputOperation text
    else if text = "=" then m.calculate
    else if text = "C" then .ok m.clear
    else if text = "±" then handleSignChange m
    else if text = "%" then handlePercentage m
    else .ok m
  match r with
  | .ok m₁ => (m₁, none)
  | .error e => (CalculatorModel.reset, some e)

/-- State after one button press (the error, if any, having been shown). -/
def press (m : CalculatorModel) (text : String) : CalculatorModel :=
  (handleButtonClick m text).1

/-- State after a sequence of button presses starting from `m`. -/
def pressSeq (m : CalculatorModel) (texts : List String) : CalculatorModel :=
  texts.foldl press m

/-- The texts of the calculator's buttons. -/
def buttonSet : List String :=
  ["0", "1", "2", "3", "4", "5", "6", "7", "8", "9",
   ".", "+", "-", "×", "÷", "=", "C", "±", "%"]

/-- Number of decimal points in a string. -/
def dotCount (s : String) : Nat := s.data.count '.'

/-- The operator symbols the controller can ever store. -/
def OpOk (o : Option String) : Prop :=
  o = none ∨ o = some "+" ∨ o = some "-" ∨ o = some "×" ∨ o = some "÷"

/-- The error classes one button press can surface: success, division by
zero, or a float-parse failure.  The unsupported-operation error is not
among them. -/
def ErrOk (e : Option CalcError) : Prop :=
  e = none ∨ e = some CalcError.divisionByZero ∨
    ∃ s, e = some (CalcError.parseError s)

/-- The machine invariant: the display holds at most one decimal point
and the pending operator, when present, is one of the four supported
symbols.  (Not every reachable display parses: appending a decimal point
to an exponent-notation display produces a string `float()` rejects.) -/
def Inv (m : CalculatorModel) : Prop :=
  dotCount m.displayValue ≤ 1 ∧ OpOk m.currentOperation

/-- Button sequence driving the display into exponent notation and then
past the parser: seventeen digits make "10000000000000000", sign-change
renders the (exactly representable) value -10^16 as "-1e+16", and the
decimal button appends a point the float grammar cannot absorb. -/
def expFormSeq : List String :=
  ["1", "0", "0", "0", "0", "0", "0", "0", "0",
   "0", "0", "0", "0", "0", "0", "0", "0", "±", "."]

/-! Character-level facts. -/

lemma isDigit_ne_dot {c : Char} (h : c.isDigit = true) : c ≠ '.' := by
  rintro rfl; simp at h

lemma digitChar_isDigit (n : Nat) : (digitChar n).isDigit = true := by
  unfold digitChar
  have h : n % 10 < 10 := Nat.mod_lt n (by decide)
  revert h
  generalize n % 10 = k
  intro h
  interval_cases k <;> decide

lemma natReprAux_digits :
    ∀ fuel n : Nat, ∀ c ∈ natReprAux fuel n, c.isDigit = true := by
  intro fuel
  induction fuel with
  | zero => intro n c hc; simp [natReprAux] at hc
  | succ fuel ih =>
    intro n c hc
    unfold natReprAux at hc
    split at hc
    · rcases List.mem_singleton.mp hc with rfl
      exact digitChar_isDigit n
    · rcases List.mem_append.mp hc with hc | hc
      · exact ih _ c hc
      · rcases List.mem_singleton.mp hc with rfl
        exact digitChar_isDigit _

lemma fracDigitsAux_digits :
    ∀ k n d : Nat, ∀ c ∈ fracDigitsAux k n d, c.isDigit = true := by
  intro k
  induction k with
  | zero => intro n d c hc; simp [fracDigitsAux] at hc
  | succ k ih =>
    intro n d c hc
    unfold fracDigitsAux at hc
    rcases List.mem_cons.mp hc with rfl | hc
    · exact digitChar_isDigit _
    · exact ih _ _ c hc

lemma dropTrailingZeros_digits {l : List Char}
    (h : ∀ c ∈ l, c.isDigit = true) :
    ∀ c ∈ dropTrailingZeros l, c.isDigit = true := by
  intro c hc
  simp only [dropTrailingZeros] at hc
  split at hc
  · rcases List.mem_singleton.mp hc with rfl; decide
  · have h1 : c ∈ l.reverse.dropWhile (fun d => d = '0') := by
      simpa using List.mem_reverse.mp hc
    have h2 : c ∈ l.reverse := (List.dropWhile_sublist _).subset h1
    exact h c (List.mem_reverse.mp h2)

/-! Dot-count facts about the rendered strings. -/

lemma count_dot_digits {l : List Char} (h : ∀ c ∈ l, c.isDigit = true) :
    l.count '.' = 0 := by
  rw [List.count_eq_zero]
  intro hmem
  exact isDigit_ne_dot (h '.' hmem) rfl

lemma sciExpDigits_digits (e : Nat) :
    ∀ c ∈ sciExpDigits e, c.isDigit = true := by
  intro c hc
  simp only [sciExpDigits] at hc
  split at hc
  · rcases List.mem_cons.mp hc with rfl | hc
    · decide
    · exact natReprAux_digits _ _ c hc
  · exact natReprAux_digits _ _ c hc

lemma dotCount_fixedForm {sign : String} (hs : sign.data.count '.' = 0)
    (n d : Nat) : dotCount (fixedForm sign n d) ≤ 1 := by
  have hfrac : (if n % d = 0 then ['0']
      else dropTrailingZeros (fracDigitsAux 17 (n % d) d)).count '.' = 0 := by
    apply count_dot_digits
    split
    · intro c hc; rcases List.mem_singleton.mp hc with rfl; decide
    · exact dropTrailingZeros_digits (fracDigitsAux_digits _ _ _)
  have hint : (natRepr (n / d)).data.count '.' = 0 :=
    count_dot_digits (natReprAux_digits _ _)
  simp only [fixedForm, dotCount, String.data_append, List.count_append]
  rw [hs, hint, hfrac]
  simp

lemma dotCount_sciForm {sign : String} (hs : sign.data.count '.' = 0)
    {mantissa : List Char} (hm : ∀ c ∈ mantissa, c.isDigit = true)
    {esign : String} (hes : esign.data.count '.' = 0) (e : Nat) :
    dotCount (sciForm sign mantissa esign e) ≤ 1 := by
  have hhead : ([mantissa.headD '0'].count '.') = 0 := by
    apply count_dot_digits
    intro c hc
    rcases List.mem_singleton.mp hc with rfl
    cases mantissa with
    | nil => decide
    | cons a l => exact hm a (by simp)
  have hexp : (sciExpDigits e).count '.' = 0 :=
    count_dot_digits (sciExpDigits_digits e)
  have htail : mantissa.tail.count '.' = 0 :=
    count_dot_digits (fun c hc => hm c (List.mem_of_mem_tail hc))
  simp only [sciForm]
  split
  · simp only [dotCount, String.data_append, List.count_append]
    rw [hs, hhead, hexp, hes]
    simp
  · simp only [dotCount, String.data_append, List.count_append]
    rw [hs, hhead, hexp, hes, htail]
    simp

lemma dotCount_pyStrCore {sign : String} (hs : sign.data.count '.' = 0)
    (n d : Nat) : dotCount (pyStrCore sign n d) ≤ 1 := by
  simp only [pyStrCore]
  split_ifs with h1 h2 h3 h4
  · exact dotCount_fixedForm hs _ _
  · exact dotCount_fixedForm hs _ _
  · refine dotCount_sciForm hs ?_ (by decide) _
    apply dropTrailingZeros_digits
    intro c hc
    rcases List.mem_append.mp hc with hc | hc
    · exact natReprAux_digits _ _ c hc
    · exact fracDigitsAux_digits _ _ _ c hc
  · exact dotCount_fixedForm hs _ _
  · exact dotCount_sciForm hs
      (dropTrailingZeros_digits (fracDigitsAux_digits _ _ _)) (by decide) _

lemma dotCount_pyStr (q : PyNum) : dotCount (pyStr q) ≤ 1 := by
  refine dotCount_pyStrCore ?_ _ _
  split <;> decide

/-! Evaluation equations for the four operations and the dispatcher. -/

lemma opsCalculate_add (a b : PyNum) : opsCalculate "+" a b = .ok (a.add b) := rfl

lemma opsCalculate_sub (a b : PyNum) : opsCalculate "-" a b = .ok (a.sub b) := rfl

lemma opsCalculate_mul (a b : PyNum) : opsCalculate "×" a b = .ok (a.mul b) := rfl

lemma opsCalculate_div (a b : PyNum) :
    opsCalculate "÷" a b =
      if b.isZero then .error .divisionByZero else .ok (a.div b) := rfl

lemma handleButtonClick_digit {m : CalculatorModel} {t : String}
    (hd : pyIsDigit t = true) :
    handleButtonClick m t = (m.inputNumber t, none) := by
  simp [handleButtonClick, hd]

lemma handleButtonClick_dot (m : CalculatorModel) :
    handleButtonClick m "." = (handleDecimal m, none) := rfl

lemma handleButtonClick_equals (m : CalculatorModel) :
    handleButtonClick m "=" =
      (match m.calculate with
       | .ok m₁ => (m₁, none)
       | .error e => (CalculatorModel.reset, some e)) := rfl

lemma handleButtonClick_clear (m : CalculatorModel) :
    handleButtonClick m "C" = (CalculatorModel.reset, none) := rfl

lemma handleButtonClick_sign (m : CalculatorModel) :
    handleButtonClick m "±" =
      (match handleSignChange m with
       | .ok m₁ => (m₁, none)
       | .error e => (CalculatorModel.reset, some e)) := rfl

lemma handleButtonClick_pct (m : CalculatorModel) :
    handleButtonClick m "%" =
      (match handlePercentage m with
       | .ok m₁ => (m₁, none)
       | .error e => (CalculatorModel.reset, some e)) := rfl

lemma handleButtonClick_operator {m : CalculatorModel} {t : String}
    (ht : t = "+" ∨ t = "-" ∨ t = "×" ∨ t = "÷") :
    handleButtonClick m t =
      (match m.inputOperation t with
       | .ok m₁ => (m₁, none)
       | .error e => (CalculatorModel.reset, some e)) := by
  rcases ht with rfl | rfl | rfl | rfl <;> rfl

/-! Invariant preservation, one lemma per event class. -/

lemma inv_reset : Inv CalculatorModel.reset := ⟨by decide, Or.inl rfl⟩

lemma inputNumber_inv {m : CalculatorModel} {t : String}
    (hd : pyIsDigit t = true) (hInv : Inv m) : Inv (m.inputNumber t) := by
  simp only [pyIsDigit, Bool.and_eq_true, decide_eq_true_eq] at hd
  have hdig : ∀ c ∈ t.data, c.isDigit = true := List.all_eq_true.mp hd.2
  have ht0 : t.data.count '.' = 0 := count_dot_digits hdig
  unfold CalculatorModel.inputNumber
  split_ifs with hw
  · refine ⟨?_, hInv.2⟩
    show dotCount t ≤ 1
    simp [dotCount, ht0]
  · refine ⟨?_, hInv.2⟩
    show dotCount (m.displayValue ++ t) ≤ 1
    have h1 := hInv.1
    simp only [dotCount, String.data_append, List.count_append, ht0] at h1 ⊢
    omega

lemma handleDecimal_inv {m : CalculatorModel} (hInv : Inv m) :
    Inv (handleDecimal m) := by
  unfold handleDecimal
  split_ifs with h1 h2
  · exact hInv
  · refine ⟨?_, hInv.2⟩
    show dotCount "0." ≤ 1
    decide
  · refine ⟨?_, hInv.2⟩
    have h0 : m.displayValue.data.count '.' = 0 := by
      rw [List.count_eq_zero]
      intro hmem
      apply h1
      simp [pyContains]
      exact hmem
    show dotCount (m.displayValue ++ ".") ≤ 1
    simp [dotCount, String.data_append, List.count_append, h0]

lemma calculate_cases {m : CalculatorModel} (hop : OpOk m.currentOperation)
    (hd : dotCount m.displayValue ≤ 1) :
    (∃ m₁, m.calculate = Except.ok m₁ ∧ dotCount m₁.displayValue ≤ 1 ∧
      OpOk m₁.currentOperation) ∨
    m.calculate = Except.error CalcError.divisionByZero ∨
    ∃ s, m.calculate = Except.error (CalcError.parseError s) := by
  rcases hopq : m.currentOperation with _ | op
  · exact Or.inl ⟨m, by simp [CalculatorModel.calculate, hopq], hd, hop⟩
  · by_cases hg : op ≠ "" ∧ m.waitingForOperand = false
    · cases hpf : pyFloat m.displayValue with
      | none =>
        refine Or.inr (Or.inr ⟨m.displayValue, ?_⟩)
        simp [CalculatorModel.calculate, hopq, hg, hpf]
      | some q =>
        have hop4 : op = "+" ∨ op = "-" ∨ op = "×" ∨ op = "÷" := by
          rcases hop with h | h | h | h | h
          · rw [hopq] at h; exact absurd h (by simp)
          · rw [hopq] at h; exact Or.inl (Option.some.inj h)
          · rw [hopq] at h; exact Or.inr (Or.inl (Option.some.inj h))
          · rw [hopq] at h; exact Or.inr (Or.inr (Or.inl (Option.some.inj h)))
          · rw [hopq] at h; exact Or.inr (Or.inr (Or.inr (Option.some.inj h)))
        rcases hop4 with rfl | rfl | rfl | rfl
        · have he : m.calculate = Except.ok { m with displayValue := pyStr (m.storedValue.add q), currentOperation := none, waitingForOperand := true } := by
            simp [CalculatorModel.calculate, hopq, hg, hpf, opsCalculate_add]
          exact Or.inl ⟨_, he, dotCount_pyStr _, Or.inl rfl⟩
        · have he : m.calculate = Except.ok { m with displayValue := pyStr (m.storedValue.sub q), currentOperation := none, waitingForOperand := true } := by
            simp [CalculatorModel.calculate, hopq, hg, hpf, opsCalculate_sub]
          exact Or.inl ⟨_, he, dotCount_pyStr _, Or.inl rfl⟩
        · have he : m.calculate = Except.ok { m with displayValue := pyStr (m.storedValue.mul q), currentOperation := none, waitingForOperand := true } := by
            simp [CalculatorModel.calculate, hopq, hg, hpf, opsCalculate_mul]
          exact Or.inl ⟨_, he, dotCount_pyStr _, Or.inl rfl⟩
        · cases hz : q.isZero
          · have he : m.calculate = Except.ok { m with displayValue := pyStr (m.storedValue.div q), currentOperation := none, waitingForOperand := true } := by
              simp [CalculatorModel.calculate, hopq, hg, hpf, opsCalculate_div, hz]
            exact Or.inl ⟨_, he, dotCount_pyStr _, Or.inl rfl⟩
          · refine Or.inr (Or.inl ?_)
            simp [CalculatorModel.calculate, hopq, hg, hpf, opsCalculate_div,
              hz]
    · exact Or.inl ⟨m, by simp [CalculatorModel.calculate, hopq, hg], hd, hop⟩

lemma inputOperation_cases {m : CalculatorModel}
    (hop : OpOk m.currentOperation) (hd : dotCount m.displayValue ≤ 1)
    (t : String) :
    (∃ m₁, m.inputOperation t = Except.ok m₁ ∧
      dotCount m₁.displayValue ≤ 1 ∧ m₁.currentOperation = some t) ∨
    m.inputOperation t = Except.error CalcError.divisionByZero ∨
    ∃ s, m.inputOperation t = Except.error (CalcError.parseError s) := by
  cases hw : m.waitingForOperand
  · rcases calculate_cases hop hd with ⟨m₁, hc, hd₁, _⟩ | hc | ⟨s, hc⟩
    · cases hpf : pyFloat m₁.displayValue with
      | none =>
        refine Or.inr (Or.inr ⟨m₁.displayValue, ?_⟩)
        simp [CalculatorModel.inputOperation, hw, hc, hpf]
      | some q =>
        have he : m.inputOperation t = Except.ok { m₁ with storedValue := q, currentOperation := some t, waitingForOperand := true } := by
          simp [CalculatorModel.inputOperation, hw, hc, hpf]
        exact Or.inl ⟨_, he, hd₁, rfl⟩
    · exact Or.inr (Or.inl (by simp [CalculatorModel.inputOperation, hw, hc]))
    · exact Or.inr (Or.inr ⟨s,
        by simp [CalculatorModel.inputOperation, hw, hc]⟩)
  · cases hpf : pyFloat m.displayValue with
    | none =>
      refine Or.inr (Or.inr ⟨m.displayValue, ?_⟩)
      simp [CalculatorModel.inputOperation, hw, hpf]
    | some q =>
      have he : m.inputOperation t = Except.ok { m with storedValue := q, currentOperation := some t, waitingForOperand := true } := by
        simp [CalculatorModel.inputOperation, hw, hpf]
      exact Or.inl ⟨_, he, hd, rfl⟩

/-- One button press preserves the invariant, and the error it surfaces,
if any, is division by zero or a parse failure — never the
unsupported-operation error. -/
lemma step_inv {m : CalculatorModel} {t : String} (hInv : Inv m)
    (ht : t ∈ buttonSet) :
    Inv (handleButtonClick m t).1 ∧ ErrOk (handleButtonClick m t).2 := by
  have opcase : t = "+" ∨ t = "-" ∨ t = "×" ∨ t = "÷" →
      Inv (handleButtonClick m t).1 ∧ ErrOk (handleButtonClick m t).2 := by
    intro h4
    rw [handleButtonClick_operator h4]
    rcases inputOperation_cases hInv.2 hInv.1 t with
      ⟨m₁, hc, hd₁, hopt⟩ | hc | ⟨s, hc⟩
    · rw [hc]
      refine ⟨⟨hd₁, ?_⟩, Or.inl rfl⟩
      rw [hopt]
      rcases h4 with rfl | rfl | rfl | rfl
      · exact Or.inr (Or.inl rfl)
      · exact Or.inr (Or.inr (Or.inl rfl))
      · exact Or.inr (Or.inr (Or.inr (Or.inl rfl)))
      · exact Or.inr (Or.inr (Or.inr (Or.inr rfl)))
    · rw [hc]
      exact ⟨inv_reset, Or.inr (Or.inl rfl)⟩
    · rw [hc]
      exact ⟨inv_reset, Or.inr (Or.inr ⟨s, rfl⟩)⟩
  have digitcase : pyIsDigit t = true →
      Inv (handleButtonClick m t).1 ∧ ErrOk (handleButtonClick m t).2 := by
    intro hd
    rw [handleButtonClick_digit hd]
    exact ⟨inputNumber_inv hd hInv, Or.inl rfl⟩
  fin_cases ht
  · exact digitcase (by decide)
  · exact digitcase (by decide)
  · exact digitcase (by decide)
  · exact digitcase (by decide)
  · exact digitcase (by decide)
  · exact digitcase (by decide)
  · exact digitcase (by decide)
  · exact digitcase (by decide)
  · exact digitcase (by decide)
  · exact digitcase (by decide)
  · rw [handleButtonClick_dot]
    exact ⟨handleDecimal_inv hInv, Or.inl rfl⟩
  · exact opcase (Or.inl rfl)
  · exact opcase (Or.inr (Or.inl rfl))
  · exact opcase (Or.inr (Or.inr (Or.inl rfl)))
  · exact opcase (Or.inr (Or.inr (Or.inr rfl)))
  · rw [handleButtonClick_equals]
    rcases calculate_cases hInv.2 hInv.1 with ⟨m₁, hc, hd₁, hopk⟩ | hc | ⟨s, hc⟩
    · rw [hc]
      exact ⟨⟨hd₁, hopk⟩, Or.inl rfl⟩
    · rw [hc]
      exact ⟨inv_reset, Or.inr (Or.inl rfl)⟩
    · rw [hc]
      exact ⟨inv_reset, Or.inr (Or.inr ⟨s, rfl⟩)⟩
  · rw [handleButtonClick_clear]
    exact ⟨inv_reset, Or.inl rfl⟩
  · rw [handleButtonClick_sign]
    cases hpf : pyFloat m.displayValue with
    | none =>
      have he : handleSignChange m
          = Except.error (CalcError.parseError m.displayValue) := by
        simp [handleSignChange, hpf]
      rw [he]
      exact ⟨inv_reset, Or.inr (Or.inr ⟨m.displayValue, rfl⟩)⟩
    | some q =>
      have he : handleSignChange m
          = Except.ok { m with displayValue := pyStr q.neg } := by
        simp [handleSignChange, hpf]
      rw [he]
      exact ⟨⟨dotCount_pyStr _, hInv.2⟩, Or.inl rfl⟩
  · rw [handleButtonClick_pct]
    cases hpf : pyFloat m.displayValue with
    | none =>
      have he : handlePercentage m
          = Except.error (CalcError.parseError m.displayValue) := by
        simp [handlePercentage, hpf]
      rw [he]
      exact ⟨inv_reset, Or.inr (Or.inr ⟨m.displayValue, rfl⟩)⟩
    | some q =>
      have he : handlePercentage m = Except.ok { m with displayValue := pyStr (q.div (PyNum.ofInt 100)) } := by
        simp [handlePercentage, hpf]
      rw [he]
      exact ⟨⟨dotCount_pyStr _, hInv.2⟩, Or.inl rfl⟩

/-- Every state reachable from an invariant state through keypad buttons
satisfies the invariant. -/
lemma pressSeq_inv :
    ∀ (ts : List String) (m : CalculatorModel), Inv m →
      (∀ t ∈ ts, t ∈ buttonSet) → Inv (pressSeq m ts) := by
  intro ts
  induction ts with
  | nil => intro m hInv _; exact hInv
  | cons t ts ih =>
    intro m hInv hts
    have h1 : pressSeq m (t :: ts) = pressSeq (press m t) ts := rfl
    rw [h1]
    exact ih (press m t) ((step_inv hInv (hts t (by simp))).1)
      (fun u hu => hts u (by simp [hu]))

lemma inv_init : Inv calcInit := inv_reset

/-! Helper lemmas for digit sequences. -/

lemma pyIsDigit_singleton {c : Char} (hc : c.isDigit = true) :
    pyIsDigit (String.mk [c]) = true := by
  simp [pyIsDigit, hc, String.ext_iff]

lemma pressSeq_digits_append :
    ∀ ds : List Char, (∀ c ∈ ds, c.isDigit = true) →
      ∀ m : CalculatorModel, m.waitingForOperand = false →
        (pressSeq m (ds.map fun c => String.mk [c])).displayValue.data
            = m.displayValue.data ++ ds ∧
          (pressSeq m (ds.map fun c => String.mk [c])).waitingForOperand
            = false := by
  intro ds
  induction ds with
  | nil => intro _ m hw; exact ⟨by simp [pressSeq], hw⟩
  | cons c ds ih =>
    intro hd m hw
    have hc : c.isDigit = true := hd c (by simp)
    have hstep : press m (String.mk [c]) = m.inputNumber (String.mk [c]) := by
      unfold press
      rw [handleButtonClick_digit (pyIsDigit_singleton hc)]
    have hin : (m.inputNumber (String.mk [c])).displayValue.data
        = m.displayValue.data ++ [c] ∧
        (m.inputNumber (String.mk [c])).waitingForOperand = false := by
      unfold CalculatorModel.inputNumber
      rw [if_neg (by simp [hw])]
      exact ⟨by rw [String.data_append], hw⟩
    have e : pressSeq m ((c :: ds).map fun c => String.mk [c])
        = pressSeq (press m (String.mk [c])) (ds.map fun c => String.mk [c]) :=
      rfl
    have h2 := ih (fun d hd' => hd d (by simp [hd']))
      (m.inputNumber (String.mk [c])) hin.2
    rw [e, hstep]
    refine ⟨?_, h2.2⟩
    rw [h2.1, hin.1]
    simp

/-! The ten claims. -/

/-- C1, counterexample: after Digit 5, Operator +, Digit 3, Equals the
display is not the string "8" (Python renders str(8.0) with a trailing
".0"). -/
theorem claim_C1_counterexample :
    (pressSeq calcInit ["5", "+", "3", "="]).displayValue ≠ "8" := by decide

/-- C1 (amended): after Digit 5, Operator +, Digit 3, Equals the display is
exactly "8.0" (the float rendering of 5 + 3), the pending operator is
cleared and the machine awaits a new entry. -/
theorem claim_C1 :
    (pressSeq calcInit ["5", "+", "3", "="]).displayValue = "8.0" ∧
    (pressSeq calcInit ["5", "+", "3", "="]).currentOperation = none ∧
    (pressSeq calcInit ["5", "+", "3", "="]).waitingForOperand = true := by
  decide

/-- C2: after Digit 6, Operator ÷, Digit 0, pressing Equals surfaces the
division-by-zero error to the presentation layer and resets the whole
state to its initial values, so the display shows "0", no operator is
pending and the machine awaits a new entry. -/
theorem claim_C2 :
    handleButtonClick (pressSeq calcInit ["6", "÷", "0"]) "="
        = (calcInit, some CalcError.divisionByZero) ∧
      calcInit.displayValue = "0" ∧
      calcInit.currentOperation = none ∧
      calcInit.waitingForOperand = true := by
  decide

/-- C3, counterexample: after Digit 5, Operator ×, Digit 4, Operator +,
Digit 1, Equals the display is not the string "21" (Python renders
str(21.0) with a trailing ".0"). -/
theorem claim_C3_counterexample :
    (pressSeq calcInit ["5", "×", "4", "+", "1", "="]).displayValue
      ≠ "21" := by decide

/-- C3 (amended): the sequence Digit 5, Operator ×, Digit 4, Operator +,
Digit 1, Equals displays exactly "21.0": the pending × is resolved when +
is pressed (5 × 4 = 20, displayed "20.0" and stored), then 20 + 1 = 21. -/
theorem claim_C3 :
    (pressSeq calcInit ["5", "×", "4", "+", "1", "="]).displayValue
        = "21.0" ∧
      (pressSeq calcInit ["5", "×", "4"]).currentOperation = some "×" ∧
      (pressSeq calcInit ["5", "×", "4", "+"]).displayValue = "20.0" ∧
      (pressSeq calcInit ["5", "×", "4", "+"]).currentOperation = some "+" ∧
      pyFloat "20.0" = some (pressSeq calcInit ["5", "×", "4", "+"]).storedValue ∧
      (pressSeq calcInit ["5", "×", "4", "+"]).waitingForOperand = true := by
  decide

/-- C4: in every state reachable from the initial state through the keypad
buttons the display contains at most one decimal point, and pressing the
decimal button while the display already contains a point leaves the state
unchanged and raises no error. -/
theorem claim_C4 :
    (∀ ts : List String, (∀ t ∈ ts, t ∈ buttonSet) →
      dotCount (pressSeq calcInit ts).displayValue ≤ 1) ∧
    ∀ m : CalculatorModel, pyContains m.displayValue '.' = true →
      handleButtonClick m "." = (m, none) := by
  constructor
  · intro ts hts
    exact (pressSeq_inv ts calcInit inv_init hts).1
  · intro m h
    rw [handleButtonClick_dot]
    unfold handleDecimal
    rw [if_pos h]

/-- C4 witness at a concrete input: a sequence with two decimal presses
shows at most one point, and a decimal press on a display already holding
a point is a no-op. -/
theorem claim_C4_witness :
    dotCount (pressSeq calcInit ["1", ".", "2", "."]).displayValue ≤ 1 ∧
      handleButtonClick (pressSeq calcInit ["1", "."]) "."
        = (pressSeq calcInit ["1", "."], none) :=
  ⟨claim_C4.1 ["1", ".", "2", "."] (by decide),
    claim_C4.2 (pressSeq calcInit ["1", "."]) (by decide)⟩

/-- C5, counterexample: after Digit 9 and SignChange the display is not
the string "-9" (Python renders str(-9.0) with a trailing ".0"), and a
second SignChange does not show "9". -/
theorem claim_C5_counterexample :
    (pressSeq calcInit ["9", "±"]).displayValue ≠ "-9" ∧
      (pressSeq calcInit ["9", "±", "±"]).displayValue ≠ "9" := by decide

/-- C5 (amended): Digit 9 then SignChange displays exactly "-9.0", and a
second SignChange brings the display back to exactly "9.0" — the two
applications round-trip the displayed value, with float formatting. -/
theorem claim_C5 :
    (pressSeq calcInit ["9", "±"]).displayValue = "-9.0" ∧
      (pressSeq calcInit ["9", "±", "±"]).displayValue = "9.0" := by decide

/-- C6: for every non-empty sequence of digit presses from the initial
state the display is exactly the concatenation of the pressed digit
characters: the first digit replaces the initial "0" because the machine
awaits a new entry, and each further digit is appended. -/
theorem claim_C6 :
    ∀ ds : List Char, ds ≠ [] → (∀ c ∈ ds, c.isDigit = true) →
      (pressSeq calcInit (ds.map fun c => String.mk [c])).displayValue
        = String.mk ds := by
  intro ds hne hd
  cases ds with
  | nil => exact absurd rfl hne
  | cons c ds =>
    have hc : c.isDigit = true := hd c (by simp)
    have hstep : press calcInit (String.mk [c])
        = calcInit.inputNumber (String.mk [c]) := by
      unfold press
      rw [handleButtonClick_digit (pyIsDigit_singleton hc)]
    have hfirst : (calcInit.inputNumber (String.mk [c])).displayValue.data
        = [c] ∧
        (calcInit.inputNumber (String.mk [c])).waitingForOperand = false := by
      unfold CalculatorModel.inputNumber
      rw [if_pos (show calcInit.waitingForOperand = true from rfl)]
      exact ⟨rfl, rfl⟩
    have e : pressSeq calcInit ((c :: ds).map fun c => String.mk [c])
        = pressSeq (press calcInit (String.mk [c]))
          (ds.map fun c => String.mk [c]) := rfl
    have h2 := pressSeq_digits_append ds (fun d hd' => hd d (by simp [hd']))
      (calcInit.inputNumber (String.mk [c])) hfirst.2
    apply String.ext_iff.mpr
    rw [e, hstep, h2.1, hfirst.1]
    rfl

/-- C6 witness at a concrete input: pressing 1 then 2 displays "12". -/
theorem claim_C6_witness :
    (pressSeq calcInit (['1', '2'].map fun c => String.mk [c])).displayValue
      = String.mk ['1', '2'] :=
  claim_C6 ['1', '2'] (by decide) (by decide)

/-- C7: from any state, pressing Clear produces exactly the initial state
(display "0", no pending operator, awaiting a new entry, stored operand
zeroed) and raises no error. -/
theorem claim_C7 :
    ∀ m : CalculatorModel,
      handleButtonClick m "C" = (calcInit, none) ∧
        calcInit.displayValue = "0" ∧
        calcInit.currentOperation = none ∧
        calcInit.waitingForOperand = true ∧
        calcInit.storedValue = PyNum.ofInt 0 := by
  intro m
  exact ⟨handleButtonClick_clear m, rfl, rfl, rfl, rfl⟩

/-- C7 witness at a concrete input: Clear after 5, + resets to the initial
state. -/
theorem claim_C7_witness :
    handleButtonClick (pressSeq calcInit ["5", "+"]) "C" = (calcInit, none) ∧
      calcInit.displayValue = "0" ∧
      calcInit.currentOperation = none ∧
      calcInit.waitingForOperand = true ∧
      calcInit.storedValue = PyNum.ofInt 0 :=
  claim_C7 (pressSeq calcInit ["5", "+"])

/-- C8: pressing Equals with no pending operator, or while a new entry is
still awaited, leaves the whole state unchanged and raises no error. -/
theorem claim_C8 :
    ∀ m : CalculatorModel,
      m.currentOperation = none ∨ m.waitingForOperand = true →
        handleButtonClick m "=" = (m, none) := by
  intro m h
  rw [handleButtonClick_equals]
  have hc : m.calculate = Except.ok m := by
    rcases h with h | h
    · simp [CalculatorModel.calculate, h]
    · rcases hop : m.currentOperation with _ | op
      · simp [CalculatorModel.calculate, hop]
      · simp [CalculatorModel.calculate, hop, h]
  rw [hc]

/-- C8 witness at a concrete input: Equals in the initial state does
nothing. -/
theorem claim_C8_witness : handleButtonClick calcInit "=" = (calcInit, none) :=
  claim_C8 calcInit (Or.inl rfl)

/-- C9: when the display parses as a number, SignChange and Percentage
rewrite only the display (to the rendering of its negation, resp. of its
hundredth); the stored operand, the pending operator and the
awaiting-new-entry flag keep their values, and no error is raised. -/
theorem claim_C9 :
    ∀ (m : CalculatorModel) (q : PyNum), pyFloat m.displayValue = some q →
      handleButtonClick m "±"
          = ({ m with displayValue := pyStr q.neg }, none) ∧
        handleButtonClick m "%"
          = ({ m with displayValue := pyStr (q.div (PyNum.ofInt 100)) }, none) ∧
        (press m "±").storedValue = m.storedValue ∧
        (press m "±").currentOperation = m.currentOperation ∧
        (press m "±").waitingForOperand = m.waitingForOperand ∧
        (press m "%").storedValue = m.storedValue ∧
        (press m "%").currentOperation = m.currentOperation ∧
        (press m "%").waitingForOperand = m.waitingForOperand := by
  intro m q hq
  have e1 : handleButtonClick m "±"
      = ({ m with displayValue := pyStr q.neg }, none) := by
    rw [handleButtonClick_sign]
    have h : handleSignChange m
        = Except.ok { m with displayValue := pyStr q.neg } := by
      simp [handleSignChange, hq]
    rw [h]
  have e2 : handleButtonClick m "%"
      = ({ m with displayValue := pyStr (q.div (PyNum.ofInt 100)) }, none) := by
    rw [handleButtonClick_pct]
    have h : handlePercentage m = Except.ok { m with displayValue := pyStr (q.div (PyNum.ofInt 100)) } := by
      simp [handlePercentage, hq]
    rw [h]
  have p1 : press m "±" = { m with displayValue := pyStr q.neg } := by
    unfold press
    rw [e1]
  have p2 : press m "%"
      = { m with displayValue := pyStr (q.div (PyNum.ofInt 100)) } := by
    unfold press
    rw [e2]
  rw [p1, p2]
  exact ⟨e1, e2, rfl, rfl, rfl, rfl, rfl, rfl⟩

/-- C9 witness at a concrete input: in the initial state (display "0",
which parses), SignChange and Percentage keep every field but the
display. -/
theorem claim_C9_witness :
    handleButtonClick calcInit "±"
        = ({ calcInit with displayValue := pyStr (PyNum.neg ⟨0, 1⟩) }, none) ∧
      handleButtonClick calcInit "%"
        = ({ calcInit with displayValue := pyStr (PyNum.div ⟨0, 1⟩ (PyNum.ofInt 100)) }, none) ∧
      (press calcInit "±").storedValue = calcInit.storedValue ∧
      (press calcInit "±").currentOperation = calcInit.currentOperation ∧
      (press calcInit "±").waitingForOperand = calcInit.waitingForOperand ∧
      (press calcInit "%").storedValue = calcInit.storedValue ∧
      (press calcInit "%").currentOperation = calcInit.currentOperation ∧
      (press calcInit "%").waitingForOperand = calcInit.waitingForOperand :=
  claim_C9 calcInit ⟨0, 1⟩ (by decide)

/-- C10, counterexample: the public-button sequence of seventeen digits
(1 then sixteen 0s), SignChange and Decimal drives the display into
exponent notation and then to "-1e+16.", and the next SignChange press
surfaces a float-parse error — an error other than division by zero,
raised from the public buttons alone.  The value -10^16 is exactly
representable in binary64 and CPython renders it "-1e+16", so the real
program follows the same trace. -/
theorem claim_C10_counterexample :
    (∀ t ∈ expFormSeq, t ∈ buttonSet) ∧ "±" ∈ buttonSet ∧
      (pressSeq calcInit expFormSeq).displayValue = "-1e+16." ∧
      (handleButtonClick (pressSeq calcInit expFormSeq) "±").2
        = some (CalcError.parseError "-1e+16.") ∧
      ∀ s, CalcError.parseError s ≠ CalcError.divisionByZero := by
  refine ⟨by decide, by decide, by decide, by decide, ?_⟩
  intro s h
  exact CalcError.noConfusion h

/-- C10 (amended): along every button sequence the stored operator is
always absent or one of the four supported symbols, so the
unsupported-operation branch of the dispatcher never fires; one further
press can surface, besides success, a division-by-zero or a float-parse
error — never an unsupported-operation error.  (Unlike the original
claim, parse errors are reachable from the public buttons: see the
counterexample.) -/
theorem claim_C10 :
    ∀ ts : List String, (∀ t ∈ ts, t ∈ buttonSet) →
      OpOk (pressSeq calcInit ts).currentOperation ∧
        ∀ t ∈ buttonSet,
          ErrOk (handleButtonClick (pressSeq calcInit ts) t).2 ∧
            ∀ s, (handleButtonClick (pressSeq calcInit ts) t).2
              ≠ some (CalcError.unsupportedOperation s) := by
  intro ts hts
  have hInv := pressSeq_inv ts calcInit inv_init hts
  refine ⟨hInv.2, fun t ht => ⟨(step_inv hInv ht).2, ?_⟩⟩
  intro s h
  rcases (step_inv hInv ht).2 with he | he | ⟨s', he⟩
  · rw [he] at h
    exact Option.noConfusion h
  · rw [he] at h
    exact CalcError.noConfusion (Option.some.inj h)
  · rw [he] at h
    exact CalcError.noConfusion (Option.some.inj h)

/-- C10 witness at a concrete input: after the exponent-notation sequence
the pending operator is still in the supported set and the next
SignChange press surfaces one of the permitted error classes (here the
parse error exhibited by the counterexample). -/
theorem claim_C10_witness :
    OpOk (pressSeq calcInit expFormSeq).currentOperation ∧
      ErrOk (handleButtonClick (pressSeq calcInit expFormSeq) "±").2 :=
  ⟨(claim_C10 expFormSeq (by decide)).1,
    ((claim_C10 expFormSeq (by decide)).2 "±" (by decide)).1⟩

end Calculadora
